import Mathlib

/-!
ExperienceMe — verification of the filter/render/metrics front-end logic

Shallow embedding of the client-side scripts of the ExperienceMe repository
(`finder.js`, `experiences.js`, `detailed_experience.js`, `landing.js`,
`dashboards/business.js`, `dashboards/businessmetrics.js`, `dashboards/user.js`).

The external data platform (Supabase) is modelled as plain relational data:
a query built with `.eq` / `.in` / `.lte` / `.gte` / `.or(ilike…)` constraints
is embedded as a `List.filter` over the rows of the corresponding table, and a
`.limit(n)` as `List.take n`.  Browser-local storage is an association list
with shadowing (newest entry first), and DOM display state is a record of
visibility flags.  JavaScript `x || d` string defaulting is embedded as
`jsOr`, and JavaScript truthiness of a nullable number (`null`/`0` falsy) as
`jsTruthyNum`.
-/

namespace ExperienceMe

/-- JavaScript string defaulting `s || d`: the empty string is falsy. -/
def jsOr (s d : String) : String := if s = "" then d else s

/-- JavaScript truthiness of a nullable numeric field: `null` and `0` are falsy. -/
def jsTruthyNum (o : Option ℚ) : Bool :=
  match o with
  | none => false
  | some v => decide (v ≠ 0)

/-! ### Kernel-computable decimal rendering of the numbers the pages interpolate -/

/-- Decimal digits of a positive number, most significant first (`fuel`
bounds the recursion and is always sufficient at the call site). -/
def natDigitsAux : Nat → Nat → List Char
  | 0, _ => []
  | _ + 1, 0 => []
  | fuel + 1, n + 1 => natDigitsAux fuel ((n + 1) / 10) ++ [Char.ofNat (48 + (n + 1) % 10)]

/-- Decimal rendering of a natural number. -/
def natToStr (n : Nat) : String :=
  if n = 0 then "0" else String.mk (natDigitsAux (n + 1) n)

/-- Decimal rendering of an integer. -/
def intToStr (i : Int) : String :=
  match i with
  | Int.ofNat m => natToStr m
  | Int.negSucc m => "-" ++ natToStr (m + 1)

/-- Embeds `Number(x).toFixed(0)` — ECMA-262: the nearest integer, ties taking the
larger — i.e. `⌊x + 1/2⌋`, computed here on the numerator/denominator to stay
kernel-computable. -/
def toFixed0 (q : ℚ) : String :=
  intToStr (Int.fdiv (2 * q.num + (q.den : Int)) (2 * (q.den : Int)))

/-- JS template interpolation of a raw number (`` `€${experience.min_price}` ``).
Integral values render as JS renders them; no theorem relies on the rendering
of non-integral values. -/
def numToStr (q : ℚ) : String :=
  if q.den = 1 then intToStr q.num else intToStr q.num ++ "/" ++ natToStr q.den

/-- Image row (`image` table): `image_url`, `is_primary`, `display_order`. -/
structure Image where
  image_url : String
  is_primary : Bool
  display_order : Option Int
deriving DecidableEq, Repr

/-- Nested business record, as selected by `business:business_id(business_name)`. -/
structure BusinessRef where
  business_name : String
deriving DecidableEq, Repr

/-- Experience row, with the nested relations selected by the read queries. -/
structure Experience where
  experience_id : String
  title : String
  event_description : String
  county : String
  min_price : Option ℚ
  max_price : Option ℚ
  status : String
  is_published : Bool
  business : Option BusinessRef
  image : List Image
deriving DecidableEq, Repr

/-- Row of the `experience_category` many-to-many link table. -/
structure ECLink where
  experience_id : String
  category_id : String
deriving DecidableEq, Repr

/-- Row of the `favorite` table: existence of the (user, experience) pair means favorited. -/
structure FavRow where
  user_id : String
  experience_id : String
deriving DecidableEq, Repr

/-- The relational store: the tables the verified read/write paths touch. -/
structure DB where
  experiences : List Experience
  experience_category : List ECLink
  favorite : List FavRow
deriving DecidableEq, Repr

/-! ## Budget buckets (finder.js lines 298–301, experiences.js lines 318–323)

```js
if (budget === 'under_50') query = query.lte('min_price', 50);
if (budget === '50_100')  query = query.gte('min_price', 50).lte('min_price', 100);
if (budget === '100_200') query = query.gte('min_price', 100).lte('min_price', 200);
if (budget === '200_plus') query = query.gte('min_price', 200);
```
The four branch conditions are on the budget string, so exactly one branch
applies; `bucketMatches` is the numeric predicate the selected branch applies
to a (non-null) `min_price` value. -/
def bucketMatches (budget : String) (p : ℚ) : Bool :=
  match budget with
  | "under_50" => decide (p ≤ 50)
  | "50_100" => decide (50 ≤ p) && decide (p ≤ 100)
  | "100_200" => decide (100 ≤ p) && decide (p ≤ 200)
  | "200_plus" => decide (200 ≤ p)
  | _ => true

/-- The four budget keys offered by the budget dropdown / finder state. -/
def budgetKeys : List String := ["under_50", "50_100", "100_200", "200_plus"]

/-- Row-level budget constraint: PostgREST `lte`/`gte` on a NULL `min_price`
is not true, so a row with no `min_price` is excluded whenever one of the four
budget constraints is active; an unknown/empty budget adds no constraint. -/
def budgetRowFilter (budget : String) (mp : Option ℚ) : Bool :=
  if budget ∈ budgetKeys then
    match mp with
    | some p => bucketMatches budget p
    | none => false
  else true

/-! ## Read paths serving non-privileged roles -/

/-- Status/publish constraint shared by the finder and experiences-search
queries: `.in('status', ['approved', 'Approved']).eq('is_published', true)`. -/
def statusPublishedFilter (e : Experience) : Bool :=
  (e.status == "approved" || e.status == "Approved") && e.is_published

/-- County constraint `if (county) query = query.eq(...)` — empty county means no
constraint. -/
def countyRowFilter (county : String) (e : Experience) : Bool :=
  county == "" || e.county == county

/-- Case-folding of a string, character by character (the behaviour of SQL
`ILIKE` comparison for the characters this data uses). -/
def lowerChars (s : String) : List Char := s.data.map Char.toLower

/-- Whether `pat` is a prefix of `l`, as a computable check. -/
def isPrefixOfCL : List Char → List Char → Bool
  | [], _ => true
  | _ :: _, [] => false
  | a :: as, b :: bs => a == b && isPrefixOfCL as bs

/-- Whether `pat` occurs as a contiguous sublist of `hay`. -/
def isInfixOfCL (pat : List Char) : List Char → Bool
  | [] => pat.isEmpty
  | c :: rest => isPrefixOfCL pat (c :: rest) || isInfixOfCL pat rest

/-- Whether `pat` occurs as a substring of `hay` (both as char sequences). -/
def containsSubstr (hay pat : String) : Bool :=
  isInfixOfCL pat.data hay.data

/-- Embeds `column ILIKE '%pat%'`: case-insensitive containment (for patterns without
wildcard metacharacters, which is how the code builds them). -/
def ilikeContains (hay pat : String) : Bool :=
  isInfixOfCL (lowerChars pat) (lowerChars hay)

/-- experiences.js text search:
`query.or(title.ilike.%q%,event_description.ilike.%q%)`, applied only when
`searchText` is non-empty. -/
def searchRowFilter (searchText : String) (e : Experience) : Bool :=
  searchText == "" || (ilikeContains e.title searchText
    || ilikeContains e.event_description searchText)

/-- finder.js `getExperienceIdsForCategory`: select `experience_id` from
`experience_category` where `category_id` matches, then
`[...new Set(...)]` (dedup; only membership and emptiness matter below). -/
def getExperienceIdsForCategory (db : DB) (categoryId : String) : List String :=
  (((db.experience_category.filter (fun l => l.category_id == categoryId)).map
    (·.experience_id))).dedup

/-- experiences.js `getExperienceIdsForCategory`: same link-table lookup, but
`.map(r => r.experience_id).filter(Boolean)` (drops falsy ids, no dedup). -/
def getExperienceIdsForCategoryXP (db : DB) (categoryId : String) : List String :=
  ((db.experience_category.filter (fun l => l.category_id == categoryId)).map
    (·.experience_id)).filter (fun s => s ≠ "")

/-- Finder selections relevant to the match query. -/
structure FinderFilters where
  categoryId : String
  county : String
  budget : String
deriving DecidableEq, Repr

/-- Result of the composed finder match operation: the rows for the live
panel, plus whether the main `experiences` query was issued at all. -/
structure FetchOutcome where
  results : List Experience
  issuedMainQuery : Bool
deriving DecidableEq, Repr

/-- The main `experiences` query of finder.js `fetchMatches` (lines 283–311):
status/publish constraint, optional county and budget constraints, optional
`in('experience_id', ids)` constraint, `.limit(3)`. -/
def runFinderQuery (db : DB) (f : FinderFilters) (idsOpt : Option (List String)) :
    List Experience :=
  (db.experiences.filter (fun e =>
    statusPublishedFilter e
    && countyRowFilter f.county e
    && budgetRowFilter f.budget e.min_price
    && (match idsOpt with
        | some ids => ids.contains e.experience_id
        | none => true))).take 3

/-- finder.js `fetchMatches` (lines 272–312): if a category is selected,
resolve its experience ids through the link table first and return `[]`
without issuing the main query when that set is empty. -/
def fetchMatches (db : DB) (f : FinderFilters) : FetchOutcome :=
  if f.categoryId ≠ "" then
    let categoryExperienceIds := getExperienceIdsForCategory db f.categoryId
    if categoryExperienceIds.isEmpty then ⟨[], false⟩
    else ⟨runFinderQuery db f (some categoryExperienceIds), true⟩
  else ⟨runFinderQuery db f none, true⟩

/-- Experiences-page filter selections (experiences.js `getFilters`). -/
structure XPFilters where
  searchText : String
  categoryId : String
  county : String
  budget : String
deriving DecidableEq, Repr

/-- Result of experiences.js `loadExperiences`: rendered rows, whether the
main query was issued, and the results-meta text. -/
structure LoadOutcome where
  results : List Experience
  issuedMainQuery : Bool
  resultsMeta : String
deriving DecidableEq, Repr

/-- The main `experiences` query of experiences.js `loadExperiences`
(lines 288–333): status/publish constraint, optional text-search, county,
budget and category-id constraints; no limit. -/
def runExperiencesQuery (db : DB) (f : XPFilters) (idsOpt : Option (List String)) :
    List Experience :=
  db.experiences.filter (fun e =>
    statusPublishedFilter e
    && searchRowFilter f.searchText e
    && countyRowFilter f.county e
    && budgetRowFilter f.budget e.min_price
    && (match idsOpt with
        | some ids => ids.contains e.experience_id
        | none => true))

/-- experiences.js `loadExperiences` (lines 251–353): category resolved first
through the link table; empty id set exits early with `0 experiences found`
before the main query is built. -/
def loadExperiences (db : DB) (f : XPFilters) : LoadOutcome :=
  if f.categoryId ≠ "" then
    let categoryExperienceIds := getExperienceIdsForCategoryXP db f.categoryId
    if categoryExperienceIds.isEmpty then ⟨[], false, "0 experiences found"⟩
    else
      let list := runExperiencesQuery db f (some categoryExperienceIds)
      ⟨list, true, natToStr list.length ++ " experiences found"⟩
  else
    let list := runExperiencesQuery db f none
    ⟨list, true, natToStr list.length ++ " experiences found"⟩

/-- detailed_experience.js `loadAndRenderExperience` query (lines 143–172):
`.eq('experience_id', id).eq('status', 'approved').eq('is_published', true)`. -/
def detailQueryRows (db : DB) (experienceId : String) : List Experience :=
  db.experiences.filter (fun e =>
    e.experience_id == experienceId && e.status == "approved" && e.is_published)

/-- Embeds `.single()`: the row is returned only when the constrained query matches
exactly one record; otherwise the page shows an error message. -/
def detailFetchExperience (db : DB) (experienceId : String) : Option Experience :=
  match detailQueryRows db experienceId with
  | [e] => some e
  | _ => none

/-- Case-insensitive equality with `"approved"`, stated by case-folding. -/
def statusIsApprovedCI (s : String) : Prop :=
  String.mk (lowerChars s) = "approved"

instance (s : String) : Decidable (statusIsApprovedCI s) :=
  inferInstanceAs (Decidable (String.mk (lowerChars s) = "approved"))

/-! ## HTML escaping and the render templates -/

/-- The apostrophe character. -/
def apos : Char := Char.ofNat 39

/-- Per-character substitution performed by `escapeHtml`. -/
def escapeHtmlChar (c : Char) : List Char :=
  if c = '&' then "&amp;".data
  else if c = '<' then "&lt;".data
  else if c = '>' then "&gt;".data
  else if c = '"' then "&quot;".data
  else if c = apos then "&#039;".data
  else [c]

/-- The `escapeHtml` function, defined identically in finder.js (372–379),
experiences.js (429–436), detailed_experience.js (511–518) and
businessmetrics.js (694–701): five successive `replaceAll` calls
(`&`→`&amp;`, `<`→`&lt;`, `>`→`&gt;`, `"`→`&quot;`, apostrophe→`&#039;`).
Each pattern is a single character and no replacement string contains a
pattern replaced by a later step, so the chain is exactly the per-character
substitution embedded here. -/
def escapeHtml (value : String) : String :=
  String.mk ((value.data.map escapeHtmlChar).flatten)

/-- finder.js / experiences.js `getPrimaryImageUrl` (366–370 resp. 416–420):
the image flagged primary, else the first element of the collection in its
given order (no sorting), else the empty string. -/
def getPrimaryImageUrl (exp : Experience) : String :=
  let imgs := exp.image
  match (imgs.find? (·.is_primary)).orElse (fun _ => imgs.head?) with
  | some primary => primary.image_url
  | none => ""

/-- The finder/experiences card image:
`getPrimaryImageUrl(exp) || 'https://via.placeholder.com/300x200'`. -/
def finderCardImageUrl (exp : Experience) : String :=
  jsOr (getPrimaryImageUrl exp) "https://via.placeholder.com/300x200"

/-- The template literal of finder.js `renderMatchCard` (335–345), as a
function of the already-computed insertion strings. -/
def matchCardHtml (imgUrl title county fromPrice businessName experienceId : String) :
    String :=
  "\n    <div class=\"match-card\">\n      <img class=\"match-img\" src=\"" ++ imgUrl
    ++ "\" alt=\"" ++ title
    ++ "\" loading=\"lazy\" />\n      <div class=\"match-body\">\n        <h3>" ++ title
    ++ "</h3>\n        <p class=\"muted\">" ++ county ++ " • From " ++ fromPrice
    ++ "</p>\n        <p class=\"muted\">" ++ businessName
    ++ "</p>\n      </div>\n      <button class=\"btn-small\" data-view-id=\""
    ++ experienceId ++ "\">View</button>\n    </div>\n  "

/-- finder.js `renderMatchCard` (328–346): title, county and business name
pass through `escapeHtml`; the image URL and the experience id are inserted
as computed. -/
def renderMatchCard (exp : Experience) : String :=
  let title := escapeHtml (jsOr exp.title "Experience")
  let county := escapeHtml (jsOr exp.county "Ireland")
  let businessName := escapeHtml ((exp.business.map (·.business_name)).getD "")
  let fromPrice :=
    match exp.min_price with
    | some p => "€" ++ toFixed0 p
    | none => "€—"
  matchCardHtml (finderCardImageUrl exp) title county fromPrice businessName
    exp.experience_id

/-- detailed_experience.js `renderList` (470–479): each list item passes
through `escapeHtml`. -/
def renderListHtml (items : List String) : String :=
  if items = [] then "<li>Details coming soon.</li>"
  else String.join (items.map (fun i => "<li>" ++ escapeHtml i ++ "</li>"))

/-- An experience row as held by the business dashboard (business.js): the
precomputed `primaryImage` beside the editable fields. -/
structure BizExperience where
  experience_id : String
  title : String
  short_description : String
  event_description : String
  county : String
  status : String
  min_price : Option ℚ
  max_price : Option ℚ
  primaryImage : Option String
deriving DecidableEq, Repr

/-- business.js `truncateText` (564–568). -/
def truncateText (text : String) (maxLength : Nat) : String :=
  if text = "" then ""
  else if text.length ≤ maxLength then text
  else String.mk (text.data.take maxLength) ++ "..."

/-- Embeds `s.charAt(0).toUpperCase() + s.slice(1)`. -/
def capitalizeFirst (s : String) : String :=
  match s.data with
  | [] => ""
  | c :: rest => String.mk (c.toUpper :: rest)

/-- business.js `createExperienceCard` (529–562).  Every text field —
title, county, description, status, prices — is interpolated into the
template without any escaping (the file defines no `escapeHtml`). -/
def createExperienceCard (experience : BizExperience) : String :=
  let primaryImage :=
    jsOr (experience.primaryImage.getD "")
      "https://via.placeholder.com/400x250?text=No+Image"
  let statusClass := "status-" ++ experience.status
  let statusText := capitalizeFirst experience.status
  let priceDisplay :=
    if jsTruthyNum experience.min_price && jsTruthyNum experience.max_price then
      "€" ++ numToStr (experience.min_price.getD 0) ++ " - €"
        ++ numToStr (experience.max_price.getD 0)
    else if jsTruthyNum experience.min_price then
      "From €" ++ numToStr (experience.min_price.getD 0)
    else "Price TBD"
  let countyDisplay := jsOr experience.county "Location TBD"
  "\n        <div class=\"experience-card\">\n            <div class=\"experience-image\" style=\"background-image: url(\x27"
    ++ primaryImage
    ++ "\x27)\">\n                <span class=\"status-badge " ++ statusClass ++ "\">"
    ++ statusText
    ++ "</span>\n            </div>\n            <div class=\"experience-content\">\n                <h3>"
    ++ experience.title
    ++ "</h3>\n                <p class=\"experience-meta\">" ++ countyDisplay
    ++ "</p>\n                <p class=\"experience-description\">"
    ++ truncateText (jsOr experience.short_description experience.event_description) 120
    ++ "</p>\n                <div class=\"experience-footer\">\n                    <span class=\"experience-price\">"
    ++ priceDisplay
    ++ "</span>\n                    <div class=\"experience-actions\">\n                        <button class=\"btn-icon\" onclick=\"editExperience(\x27"
    ++ experience.experience_id
    ++ "\x27)\" title=\"Edit\">✏️</button>\n                        <button class=\"btn-icon\" onclick=\"deleteExperience(\x27"
    ++ experience.experience_id
    ++ "\x27)\" title=\"Delete\">🗑️</button>\n                    </div>\n                </div>\n            </div>\n        </div>\n    "

/-- Category row (`category` table), as rendered by the landing page. -/
structure Category where
  category_id : String
  category_name : String
  category_image_url : String
deriving DecidableEq, Repr

/-- landing.js category card (the body of the `map` in `displayCategories`,
110–121).  `enc` stands for the browser built-in `encodeURIComponent`; the
category name is interpolated raw into the `onclick` attribute, the `alt`
attribute and the `<h3>` element. -/
def categoryCardHtml (enc : String → String) (category : Category) : String :=
  "\n        <div class=\"image-card\" onclick=\"searchByCategory(\x27"
    ++ category.category_id ++ "\x27, \x27" ++ category.category_name
    ++ "\x27)\">\n            <img\n                src=\"" ++ category.category_image_url
    ++ "\"\n                alt=\"" ++ category.category_name
    ++ "\"\n                onerror=\"this.src=\x27https://via.placeholder.com/400x300?text="
    ++ enc category.category_name
    ++ "\x27\"\n            >\n            <div class=\"image-card-overlay\">\n                <h3 class=\"image-card-title\">"
    ++ category.category_name
    ++ "</h3>\n            </div>\n        </div>\n    "

/-- landing.js `displayCategories` (100–122): empty-state message, else the
joined cards. -/
def displayCategories (enc : String → String) (categories : List Category) : String :=
  if categories = [] then "<p class=\"loading\">No categories available yet</p>"
  else String.join (categories.map (categoryCardHtml enc))

/-! ## Detail-page primary image selection -/

/-- The comparator key of detailed_experience.js (312–313):
`a.display_order ?? 999`. -/
def sortKeyOf (i : Image) : Int := i.display_order.getD 999

/-- Insertion step of the stable ascending sort by `sortKeyOf`. -/
def insertImageByKey (x : Image) : List Image → List Image
  | [] => [x]
  | y :: ys =>
    if sortKeyOf y < sortKeyOf x then y :: insertImageByKey x ys
    else x :: y :: ys

/-- Embeds `images.slice().sort((a, b) => (a.display_order ?? 999) - (b.display_order ?? 999))`:
JS `Array.prototype.sort` with a numeric comparator is a stable ascending
sort by the comparator key, embedded here as a stable insertion sort. -/
def sortImages (l : List Image) : List Image := l.foldr insertImageByKey []

/-- The detail-page placeholder URL:
`https://via.placeholder.com/1200x800?text=${encodeURIComponent(exp.title || 'Experience')}`
(`enc` stands for the browser built-in `encodeURIComponent`). -/
def detailPlaceholder (enc : String → String) (title : String) : String :=
  "https://via.placeholder.com/1200x800?text=" ++ enc (jsOr title "Experience")

/-- detailed_experience.js `renderDetail`, images section (308–321): sort by
display order (missing orders last), then the first primary-flagged image,
else the first of the sorted list, else the placeholder built from the
title. -/
def detailMainImageUrl (enc : String → String) (exp : Experience) : String :=
  let sorted := sortImages exp.image
  let primary := (sorted.find? (·.is_primary)).orElse (fun _ => sorted.head?)
  jsOr ((primary.map (·.image_url)).getD "") (detailPlaceholder enc exp.title)

/-- Modelled from the spec (§4.2): “the image flagged primary, else the first
image by ascending display order, else a placeholder”.  Used as the
refinement target the card-image selections are compared against. -/
def specPrimaryImageUrl (placeholder : String) (exp : Experience) : String :=
  match exp.image.find? (·.is_primary) with
  | some img => img.image_url
  | none =>
    match (sortImages exp.image).head? with
    | some img => img.image_url
    | none => placeholder

/-! ## Favorites -/

/-- The favorite set of a user, derived from the `favorite` table
(dashboards/user.js `loadFavorites`, step 1). -/
def favsOf (favorite : List FavRow) (uid : String) : List String :=
  (favorite.filter (fun r => r.user_id == uid)).map (·.experience_id)

namespace UserDash

/-- Outcome of a favorite toggle on the user dashboard: the table, the local
id set the favorites list is rendered from, and whether that set came from a
fresh read of the table. -/
structure ToggleOutcome where
  favorite : List FavRow
  favoriteExperienceIds : List String
  freshReadIssued : Bool
deriving DecidableEq, Repr

/-- dashboards/user.js `loadFavorites` (82–122): re-derives the local id set
from the `favorite` table. -/
def loadFavorites (favorite : List FavRow) (uid : String) : List String :=
  favsOf favorite uid

/-- dashboards/user.js `toggleFavorite` (185–221): delete-if-present /
insert-if-absent (the local set is also updated optimistically in between),
then `await loadFavorites()` re-reads the table and overwrites the local set,
so the rendered set always comes from the fresh read. -/
def toggleFavorite (favorite : List FavRow) (uid : String)
    (favoriteExperienceIds : List String) (experienceId : String) : ToggleOutcome :=
  if favoriteExperienceIds.contains experienceId then
    let favorite2 :=
      favorite.filter (fun r => !(r.user_id == uid && r.experience_id == experienceId))
    { favorite := favorite2
      favoriteExperienceIds := loadFavorites favorite2 uid
      freshReadIssued := true }
  else
    let favorite2 := favorite ++ [⟨uid, experienceId⟩]
    { favorite := favorite2
      favoriteExperienceIds := loadFavorites favorite2 uid
      freshReadIssued := true }

end UserDash

namespace Detail

/-- Outcome of a favorite toggle on the detail page: the table, the local
flag the Save button is rendered from, and whether that flag came from a
fresh read of the table. -/
structure ToggleOutcome where
  favorite : List FavRow
  isFavorited : Bool
  freshReadIssued : Bool
deriving DecidableEq, Repr

/-- detailed_experience.js `toggleFavorite` (397–422): delete or insert, then
set `isFavorited` to the constant `false` resp. `true` — no re-read of the
`favorite` table (`loadFavoriteState` is not called here). -/
def toggleFavorite (favorite : List FavRow) (authUserId : String)
    (isFavorited : Bool) (experienceId : String) : ToggleOutcome :=
  if isFavorited then
    { favorite :=
        favorite.filter (fun r => !(r.user_id == authUserId && r.experience_id == experienceId))
      isFavorited := false
      freshReadIssued := false }
  else
    { favorite := favorite ++ [⟨authUserId, experienceId⟩]
      isFavorited := true
      freshReadIssued := false }

end Detail

/-! ## Metrics recording with cool-down de-duplication -/

/-- A row inserted into `event_metric` (the fields the claims are about). -/
structure RecordedEvent where
  experience_id : String
  event_type : String
  time : Int
deriving DecidableEq, Repr

/-- Client-local state: the localStorage timestamp cache (association list
with shadowing, newest entry first) and the recorded events. -/
structure MetricsState where
  cache : List (String × Int)
  recorded : List RecordedEvent
deriving DecidableEq, Repr

/-- Embeds `Number(localStorage.getItem(key) || 0)`. -/
def lsGetNum (cache : List (String × Int)) (key : String) : Int :=
  (cache.lookup key).getD 0

/-- Embeds `localStorage.setItem(key, value)`: the newest entry shadows older ones. -/
def lsSet (cache : List (String × Int)) (key : String) (value : Int) :
    List (String × Int) :=
  (key, value) :: cache

/-- detailed_experience.js `logViewOnce` (571–581): skip when the last
recorded timestamp for `viewed_<id>` is less than 30 minutes old, else store
the timestamp and insert a `view` event row. -/
def logViewOnce (now : Int) (experienceId : String) (s : MetricsState) : MetricsState :=
  let dedupeKey := "viewed_" ++ experienceId
  let last := lsGetNum s.cache dedupeKey
  if now - last < 30 * 60 * 1000 then s
  else
    { cache := lsSet s.cache dedupeKey now
      recorded := s.recorded ++ [⟨experienceId, "view", now⟩] }

/-- detailed_experience.js `logBookingClickOnce` (584–593), called with
`minutes = 30` from `wireBookingClickTracking` (613). -/
def logBookingClickOnce (now : Int) (experienceId : String) (minutes : Int)
    (s : MetricsState) : MetricsState :=
  let dedupeKey := "booking_" ++ experienceId
  let last := lsGetNum s.cache dedupeKey
  if now - last < minutes * 60 * 1000 then s
  else
    { cache := lsSet s.cache dedupeKey now
      recorded := s.recorded ++ [⟨experienceId, "booking_click", now⟩] }

/-- The two event kinds the cool-down cache distinguishes. -/
inductive EventKind
  | view
  | bookingClick
deriving DecidableEq, Repr

/-- The `event_type` column value of each kind. -/
def typeOfKind : EventKind → String
  | .view => "view"
  | .bookingClick => "booking_click"

/-- The localStorage dedupe key of each (kind, experience) pair:
`viewed_<id>` resp. `booking_<id>`. -/
def keyOfKind : EventKind → String → String
  | .view, experienceId => "viewed_" ++ experienceId
  | .bookingClick, experienceId => "booking_" ++ experienceId

/-- One user action that triggers a metrics log attempt. -/
structure TraceEvent where
  time : Int
  kind : EventKind
  experience_id : String
deriving DecidableEq, Repr

/-- Dispatch of one trace event to the corresponding logger. -/
def stepEvent (s : MetricsState) (e : TraceEvent) : MetricsState :=
  match e.kind with
  | .view => logViewOnce e.time e.experience_id s
  | .bookingClick => logBookingClickOnce e.time e.experience_id 30 s

/-- A fresh browser: empty cache, nothing recorded. -/
def initMetricsState : MetricsState := ⟨[], []⟩

/-- Process a whole trace of user actions. -/
def runTrace (tr : List TraceEvent) : MetricsState :=
  tr.foldl stepEvent initMetricsState

/-- The recorded events of one (kind, experience) pair. -/
def recordedFor (s : MetricsState) (k : EventKind) (experienceId : String) :
    List RecordedEvent :=
  s.recorded.filter
    (fun r => r.event_type == typeOfKind k && r.experience_id == experienceId)

/-- The cool-down window: 30 minutes in milliseconds. -/
def coolDownMs : Int := 30 * 60 * 1000

/-! ## Role-aware navigation gates -/

/-- The authenticated user as returned by `auth.getUser()`. -/
structure AuthUser where
  id : String
deriving DecidableEq, Repr

/-- Outcome of the role-attribute lookup on the `users` table:
a role value, an error result (`{ data: null, error }`), or a thrown
exception (a rejected promise at the `await`). -/
inductive RoleLookup
  | ok (role : String)
  | errResult
  | thrown
deriving DecidableEq, Repr

/-- Which of the three navigation variants are displayed (`flex` vs `none`). -/
structure NavDisplay where
  navGuest : Bool
  navUser : Bool
  navBusiness : Bool
deriving DecidableEq, Repr

/-- Guest navigation only. -/
def guestNav : NavDisplay := ⟨true, false, false⟩

/-- User navigation only. -/
def userNav : NavDisplay := ⟨false, true, false⟩

/-- Business navigation only. -/
def businessNav : NavDisplay := ⟨false, false, true⟩

/-- How many navigation variants are displayed. -/
def navCount (n : NavDisplay) : Nat :=
  (if n.navGuest then 1 else 0) + (if n.navUser then 1 else 0)
    + (if n.navBusiness then 1 else 0)

namespace Finder

/-- finder.js `updateNavForAuthState` (75–111): defaults to guest; an error
result from the role lookup falls back to the `user` role
(`userRow?.role || 'user'`); the catch block resets all three flags back to
guest-only. -/
def updateNavForAuthState (user : Option AuthUser) (lookup : RoleLookup) : NavDisplay :=
  match user with
  | none => guestNav
  | some _ =>
    match lookup with
    | .thrown => guestNav
    | .errResult => userNav
    | .ok r => if jsOr r "user" = "business" then businessNav else userNav

end Finder

namespace XP

/-- experiences.js `updateNavForAuthState` (35–65): no try/catch — a thrown
role lookup escapes to the caller (second component `false`) after the
guest defaults were already applied to the DOM; an error result is not even
inspected and falls back to the `user` role. -/
def updateNavForAuthState (user : Option AuthUser) (lookup : RoleLookup) :
    NavDisplay × Bool :=
  match user with
  | none => (guestNav, true)
  | some _ =>
    match lookup with
    | .thrown => (guestNav, false)
    | .errResult => (userNav, true)
    | .ok r => ((if jsOr r "user" = "business" then businessNav else userNav), true)

/-- Outcome of the experiences-page `DOMContentLoaded` handler (11–28). -/
structure PageInitOutcome where
  nav : NavDisplay
  bindEventsRan : Bool
  experiencesLoaded : Bool
deriving DecidableEq, Repr

/-- experiences.js page initialization: `await updateNavForAuthState()` comes
first; when it throws, the rejected async handler never reaches
`bindEvents()` / `loadFilterOptions()` / `loadExperiences()`. -/
def pageInit (user : Option AuthUser) (lookup : RoleLookup) : PageInitOutcome :=
  let result := updateNavForAuthState user lookup
  { nav := result.1
    bindEventsRan := result.2
    experiencesLoaded := result.2 }

end XP

namespace Detail

/-- detailed_experience.js `setNavState` (47–84): defaults to guest; an error
result falls back to the `user` role; the catch block explicitly shows the
user navigation (“treat as normal logged in user/visitor”). -/
def setNavState (user : Option AuthUser) (lookup : RoleLookup) : NavDisplay :=
  match user with
  | none => guestNav
  | some _ =>
    match lookup with
    | .thrown => userNav
    | .errResult => userNav
    | .ok r => if jsOr r "user" = "business" then businessNav else userNav

/-! ## Detail-page state machine (authUser / favourite flag / Save button) -/

/-- The page-level mutable state of detailed_experience.js (lines 10–12)
plus the navigations the page issues. -/
structure PageState where
  authUser : Option AuthUser
  currentExperienceId : Option String
  isFavorited : Bool
  favoriteStateLoaded : Bool
  redirects : List String
deriving DecidableEq, Repr

/-- Initial page state: `let authUser = null;` (line 10) — and no statement
anywhere in detailed_experience.js ever assigns to `authUser` again. -/
def initPageState : PageState :=
  { authUser := none
    currentExperienceId := none
    isFavorited := false
    favoriteStateLoaded := false
    redirects := [] }

/-- detailed_experience.js `loadFavoriteState` (380–395): `maybeSingle` on
the (user, experience) pair, `isFavorited = !!data`. -/
def loadFavoriteState (favorite : List FavRow) (uid : String)
    (experienceId : String) : Bool :=
  favorite.any (fun r => r.user_id == uid && r.experience_id == experienceId)

/-- The `DOMContentLoaded` handler (17–41) together with
`loadAndRenderExperience` (139–196): store the URL id; the stored favourite
state is fetched only under `if (authUser)`. -/
def handleDomReady (favorite : List FavRow) (urlId : Option String)
    (s : PageState) : PageState :=
  match urlId with
  | none => s
  | some experienceId =>
    let s1 := { s with currentExperienceId := some experienceId }
    match s1.authUser with
    | some u =>
      { s1 with
        favoriteStateLoaded := true
        isFavorited := loadFavoriteState favorite u.id experienceId }
    | none => s1

/-- The Save-button click handler (120–129): without `authUser` it redirects
to the login page; with it, it would toggle the favourite flag. -/
def handleSaveClick (s : PageState) : PageState :=
  match s.authUser with
  | none => { s with redirects := s.redirects ++ ["auth/login.html"] }
  | some _ =>
    match s.currentExperienceId with
    | none => s
    | some _ => { s with isFavorited := !s.isFavorited }

/-- The user-visible events of the detail page. -/
inductive PageEvent
  | domReady (urlId : Option String)
  | saveClick
deriving DecidableEq, Repr

/-- One step of the page state machine. -/
def stepPage (favorite : List FavRow) (s : PageState) (e : PageEvent) : PageState :=
  match e with
  | .domReady urlId => handleDomReady favorite urlId s
  | .saveClick => handleSaveClick s

/-- A whole page session, starting from the initial page state. -/
def runPage (favorite : List FavRow) (events : List PageEvent) : PageState :=
  events.foldl (stepPage favorite) initPageState

end Detail

/-! ## Business-metrics KPI counting -/

/-- Outcome of a head/count query: a (nullable) count, or an error. -/
inductive CountResult
  | ok (count : Option Nat)
  | err (message : String)
deriving DecidableEq, Repr

/-- businessmetrics.js `countEvents` (265–282): on error, warn and
`return 0`; otherwise `return count || 0`. -/
def countEvents (queryResult : CountResult) : Nat :=
  match queryResult with
  | .err _ => 0
  | .ok c => c.getD 0

/-- businessmetrics.js `countSaves` (287–303): same error handling on the
`favorite_v` count query. -/
def countSaves (queryResult : CountResult) : Nat :=
  match queryResult with
  | .err _ => 0
  | .ok c => c.getD 0

/-- The `formatNumber` helper (690–692): `Number(n || 0).toLocaleString()`; locale
grouping separators are not modeled (no theorem relies on them). -/
def formatNumber (n : Nat) : String := natToStr n

/-- The three KPI texts written by `refreshKpis`. -/
structure KpiDisplay where
  kpiViews : String
  kpiSaves : String
  kpiClicks : String
deriving DecidableEq, Repr

/-- businessmetrics.js `refreshKpis` (228–259), restricted to the three KPI
numbers: the three count helpers run and their results are always rendered. -/
def refreshKpis (viewsResult savesResult clicksResult : CountResult) : KpiDisplay :=
  { kpiViews := formatNumber (countEvents viewsResult)
    kpiSaves := formatNumber (countSaves savesResult)
    kpiClicks := formatNumber (countEvents clicksResult) }

/-! ## Concrete data used by witnesses and counterexamples -/

/-- A concrete approved, published experience used by the witnesses. -/
def sampleExperience : Experience :=
  { experience_id := "e1"
    title := "Kayaking trip"
    event_description := "A day on the water"
    county := "Dublin"
    min_price := some 60
    max_price := some 80
    status := "Approved"
    is_published := true
    business := some ⟨"Blue Kayaks"⟩
    image := [] }

/-- A concrete database used by the witnesses. -/
def sampleDB : DB :=
  { experiences := [sampleExperience]
    experience_category := [⟨"e1", "cat1"⟩]
    favorite := [] }

/-- An experience whose title contains markup characters. -/
def hostileExperience : Experience :=
  { sampleExperience with title := "<b>x&y" }

/-- A business-dashboard row whose title contains markup characters. -/
def hostileBizExperience : BizExperience :=
  { experience_id := "e7"
    title := "<b>x&y"
    short_description := "desc"
    event_description := "long desc"
    county := "Cork"
    status := "draft"
    min_price := none
    max_price := none
    primaryImage := none }

/-- A category whose name contains markup characters. -/
def hostileCategory : Category :=
  { category_id := "c1"
    category_name := "<b>x"
    category_image_url := "img.jpg" }

/-- An experience whose image collection is not in display order and has no
primary flag. -/
def outOfOrderExperience : Experience :=
  { sampleExperience with
    image := [⟨"b.jpg", false, some 2⟩, ⟨"a.jpg", false, some 1⟩] }

/-- A stand-in for the browser `encodeURIComponent` used when a witness needs
a concrete encoder. -/
def sampleEnc : String → String := fun s => s

end ExperienceMe

namespace ExperienceMe

/-- C1 counterexample: at `min_price = 50` the `under_50` predicate
(`lte('min_price', 50)`) and the `50_100` predicate both hold, so the buckets
are not mutually exclusive and `under_50` does not exclude the value 50. -/
theorem bucket_overlap_at_50_counterexample :
    bucketMatches "under_50" 50 = true ∧ bucketMatches "50_100" 50 = true := by
  constructor <;> decide

/-- C1 (amended): for every non-negative price, the four budget predicates
collectively cover the price line; non-adjacent buckets are disjoint; but
adjacent buckets overlap at exactly the boundary values: `under_50` and
`50_100` share exactly the price 50, `50_100` and `100_200` share exactly 100,
and `100_200` and `200_plus` share exactly 200.  (`50_100` does include both
boundary values 50 and 100, as claimed.) -/
theorem budget_buckets_cover_and_overlap (p : ℚ) (hp : 0 ≤ p) :
    (∃ b ∈ budgetKeys, bucketMatches b p = true)
    ∧ (bucketMatches "under_50" p = true ∧ bucketMatches "50_100" p = true ↔ p = 50)
    ∧ (bucketMatches "50_100" p = true ∧ bucketMatches "100_200" p = true ↔ p = 100)
    ∧ (bucketMatches "100_200" p = true ∧ bucketMatches "200_plus" p = true ↔ p = 200)
    ∧ ¬(bucketMatches "under_50" p = true ∧ bucketMatches "100_200" p = true)
    ∧ ¬(bucketMatches "under_50" p = true ∧ bucketMatches "200_plus" p = true)
    ∧ ¬(bucketMatches "50_100" p = true ∧ bucketMatches "200_plus" p = true) := by
  have h50 : bucketMatches "under_50" p = decide (p ≤ 50) := rfl
  have h100 : bucketMatches "50_100" p = (decide (50 ≤ p) && decide (p ≤ 100)) := rfl
  have h200 : bucketMatches "100_200" p = (decide (100 ≤ p) && decide (p ≤ 200)) := rfl
  have hplus : bucketMatches "200_plus" p = decide (200 ≤ p) := rfl
  simp only [h50, h100, h200, hplus, Bool.and_eq_true, decide_eq_true_eq, budgetKeys,
    List.mem_cons, List.not_mem_nil, or_false]
  refine ⟨?_, ?_, ?_, ?_, ?_, ?_, ?_⟩
  · rcases le_total p 50 with h | h
    · exact ⟨"under_50", Or.inl rfl, by rw [h50]; simpa using h⟩
    · rcases le_total p 100 with h2 | h2
      · exact ⟨"50_100", by simp, by rw [h100]; simp [h, h2]⟩
      · rcases le_total p 200 with h3 | h3
        · exact ⟨"100_200", by simp, by rw [h200]; simp [h2, h3]⟩
        · exact ⟨"200_plus", by simp, by rw [hplus]; simpa using h3⟩
  · constructor
    · rintro ⟨h1, h2, _⟩
      exact le_antisymm h1 h2
    · rintro rfl
      norm_num
  · constructor
    · rintro ⟨⟨_, h1⟩, h2, _⟩
      exact le_antisymm h1 h2
    · rintro rfl
      norm_num
  · constructor
    · rintro ⟨⟨_, h1⟩, h2⟩
      exact le_antisymm h1 h2
    · rintro rfl
      norm_num
  · rintro ⟨h1, h2, _⟩
    linarith
  · rintro ⟨h1, h2⟩
    linarith
  · rintro ⟨⟨_, h1⟩, h2⟩
    linarith

/-- C1 witness: the amended bucket theorem applied at the concrete price 75. -/
theorem budget_buckets_cover_and_overlap_witness :
    (0 : ℚ) ≤ 75 ∧ ∃ b ∈ budgetKeys, bucketMatches b 75 = true :=
  ⟨by norm_num, (budget_buckets_cover_and_overlap 75 (by norm_num)).1⟩

/-- Any row passing the shared status/publish constraint has a status that is
case-insensitively `approved`, and is published. -/
lemma statusPublished_of_filter {e : Experience}
    (h : statusPublishedFilter e = true) :
    statusIsApprovedCI e.status ∧ e.is_published = true := by
  simp only [statusPublishedFilter, Bool.and_eq_true, Bool.or_eq_true, beq_iff_eq] at h
  obtain ⟨hs, hp⟩ := h
  refine ⟨?_, hp⟩
  rcases hs with h | h <;> rw [h] <;> unfold statusIsApprovedCI <;> decide

/-- Rows produced by the finder's main query pass the status/publish filter. -/
lemma mem_runFinderQuery {db : DB} {f : FinderFilters} {idsOpt : Option (List String)}
    {e : Experience} (h : e ∈ runFinderQuery db f idsOpt) :
    statusPublishedFilter e = true := by
  unfold runFinderQuery at h
  have h2 := List.take_subset 3 _ h
  rw [List.mem_filter] at h2
  have h3 := h2.2
  simp only [Bool.and_eq_true] at h3
  exact h3.1.1.1

/-- Rows produced by the experiences-search main query pass the status/publish
filter. -/
lemma mem_runExperiencesQuery {db : DB} {f : XPFilters} {idsOpt : Option (List String)}
    {e : Experience} (h : e ∈ runExperiencesQuery db f idsOpt) :
    statusPublishedFilter e = true := by
  unfold runExperiencesQuery at h
  rw [List.mem_filter] at h
  have h3 := h.2
  simp only [Bool.and_eq_true] at h3
  exact h3.1.1.1.1

/-- C2: on every read path serving non-privileged roles — the finder match
query, the experiences-search query, and the detail-page query — every
experience row returned has status case-insensitively equal to `approved`
and its publish flag set to true. -/
theorem nonprivileged_reads_approved_published :
    (∀ (db : DB) (f : FinderFilters) (e : Experience),
      e ∈ (fetchMatches db f).results → statusIsApprovedCI e.status ∧ e.is_published = true)
    ∧ (∀ (db : DB) (f : XPFilters) (e : Experience),
      e ∈ (loadExperiences db f).results → statusIsApprovedCI e.status ∧ e.is_published = true)
    ∧ (∀ (db : DB) (experienceId : String) (e : Experience),
      detailFetchExperience db experienceId = some e →
        statusIsApprovedCI e.status ∧ e.is_published = true) := by
  refine ⟨?_, ?_, ?_⟩
  · intro db f e he
    simp only [fetchMatches] at he
    split at he
    · split at he
      · simp at he
      · dsimp only at he
        exact statusPublished_of_filter (mem_runFinderQuery he)
    · dsimp only at he
      exact statusPublished_of_filter (mem_runFinderQuery he)
  · intro db f e he
    simp only [loadExperiences] at he
    split at he
    · split at he
      · simp at he
      · dsimp only at he
        exact statusPublished_of_filter (mem_runExperiencesQuery he)
    · dsimp only at he
      exact statusPublished_of_filter (mem_runExperiencesQuery he)
  · intro db experienceId e he
    unfold detailFetchExperience at he
    split at he
    next e' heq =>
      have hmem : e' ∈ detailQueryRows db experienceId := by
        rw [heq]; exact List.mem_singleton_self e'
      obtain rfl : e' = e := by injection he
      unfold detailQueryRows at hmem
      rw [List.mem_filter] at hmem
      have h3 := hmem.2
      simp only [Bool.and_eq_true, beq_iff_eq] at h3
      refine ⟨?_, h3.2⟩
      rw [h3.1.2]
      decide
    next => exact absurd he (by simp)

/-- C2 witness: the invariant theorem applied to a concrete database and
filter selection on all three read paths. -/
theorem nonprivileged_reads_approved_published_witness :
    (sampleExperience ∈ (fetchMatches sampleDB ⟨"", "", ""⟩).results
      ∧ statusIsApprovedCI sampleExperience.status ∧ sampleExperience.is_published = true)
    ∧ (sampleExperience ∈ (loadExperiences sampleDB ⟨"", "", "", ""⟩).results)
    ∧ (detailFetchExperience sampleDB "e1" = none) := by
  refine ⟨⟨by decide, nonprivileged_reads_approved_published.1 sampleDB ⟨"", "", ""⟩
    sampleExperience (by decide)⟩, by decide, by decide⟩

/-- C3: when the selected category's link-table lookup yields no experience
ids, both composed filter operations return an empty result without issuing
the main experiences query. -/
theorem category_empty_short_circuit :
    (∀ (db : DB) (f : FinderFilters), f.categoryId ≠ "" →
      getExperienceIdsForCategory db f.categoryId = [] →
        fetchMatches db f = ⟨[], false⟩)
    ∧ (∀ (db : DB) (f : XPFilters), f.categoryId ≠ "" →
      getExperienceIdsForCategoryXP db f.categoryId = [] →
        loadExperiences db f = ⟨[], false, "0 experiences found"⟩) := by
  constructor
  · intro db f h1 h2
    simp [fetchMatches, h1, h2]
  · intro db f h1 h2
    simp [loadExperiences, h1, h2]

/-- C3 witness: in the concrete database no experience is linked to `cat9`,
and both operations short-circuit for that category. -/
theorem category_empty_short_circuit_witness :
    ((⟨"cat9", "", ""⟩ : FinderFilters).categoryId ≠ ""
      ∧ getExperienceIdsForCategory sampleDB "cat9" = []
      ∧ fetchMatches sampleDB ⟨"cat9", "", ""⟩ = ⟨[], false⟩)
    ∧ (getExperienceIdsForCategoryXP sampleDB "cat9" = []
      ∧ loadExperiences sampleDB ⟨"", "cat9", "", ""⟩ =
          ⟨[], false, "0 experiences found"⟩) :=
  ⟨⟨by decide, by decide,
      category_empty_short_circuit.1 sampleDB ⟨"cat9", "", ""⟩ (by decide) (by decide)⟩,
    ⟨by decide,
      category_empty_short_circuit.2 sampleDB ⟨"", "cat9", "", ""⟩ (by decide) (by decide)⟩⟩

/-! ## C4: escaping of user-supplied text -/

/-- The check `isPrefixOfCL` agrees with list prefixing. -/
lemma isPrefixOfCL_iff (pat : List Char) :
    ∀ l : List Char, isPrefixOfCL pat l = true ↔ pat <+: l := by
  induction pat with
  | nil => intro l; simp [isPrefixOfCL, List.nil_prefix]
  | cons a as ih =>
    intro l
    cases l with
    | nil => simp [isPrefixOfCL]
    | cons b bs =>
      simp [isPrefixOfCL, Bool.and_eq_true, beq_iff_eq, ih, List.cons_prefix_cons,
        and_comm]

/-- The check `isInfixOfCL` agrees with list infixing. -/
lemma isInfixOfCL_iff (pat : List Char) :
    ∀ l : List Char, isInfixOfCL pat l = true ↔ pat <:+: l := by
  intro l
  induction l with
  | nil => simp [isInfixOfCL, List.isEmpty_iff, List.infix_nil]
  | cons c rest ih =>
    simp [isInfixOfCL, Bool.or_eq_true, isPrefixOfCL_iff, ih, List.infix_cons_iff]

/-- A substring of the left part is a substring of the concatenation. -/
lemma containsSubstr_append_left {a pat : String} (b : String)
    (h : containsSubstr a pat = true) : containsSubstr (a ++ b) pat = true := by
  unfold containsSubstr at h ⊢
  rw [isInfixOfCL_iff] at h ⊢
  rw [String.data_append]
  obtain ⟨s, t, hst⟩ := h
  exact ⟨s, t ++ b.data, by rw [← hst]; simp⟩

/-- A substring of the right part is a substring of the concatenation. -/
lemma containsSubstr_append_right (a : String) {b pat : String}
    (h : containsSubstr b pat = true) : containsSubstr (a ++ b) pat = true := by
  unfold containsSubstr at h ⊢
  rw [isInfixOfCL_iff] at h ⊢
  rw [String.data_append]
  obtain ⟨s, t, hst⟩ := h
  exact ⟨a.data ++ s, t, by rw [← hst]; simp⟩

/-- The per-character substitution never emits a raw `<`, `>`, `"` or
apostrophe. -/
lemma escapeHtmlChar_safe (c : Char) :
    (escapeHtmlChar c).all
      (fun x => !(x == '<' || x == '>' || x == '"' || x == apos)) = true := by
  unfold escapeHtmlChar
  split_ifs with h1 h2 h3 h4 h5
  · decide
  · decide
  · decide
  · decide
  · decide
  · simp [beq_iff_eq, h2, h3, h4, h5]

/-- The `escapeHtml` output never contains a raw `<`, `>`, `"` or apostrophe. -/
lemma escapeHtml_no_raw_specials (s : String) :
    (escapeHtml s).data.all
      (fun c => !(c == '<' || c == '>' || c == '"' || c == apos)) = true := by
  rw [List.all_eq_true]
  intro x hx
  have hx2 : x ∈ (s.data.map escapeHtmlChar).flatten := hx
  rw [List.mem_flatten] at hx2
  obtain ⟨l, hl, hxl⟩ := hx2
  rw [List.mem_map] at hl
  obtain ⟨c, _, rfl⟩ := hl
  have h := escapeHtmlChar_safe c
  rw [List.all_eq_true] at h
  exact h x hxl

set_option maxRecDepth 4000 in
/-- C4 counterexample: the business-dashboard card inserts the experience
title into the markup without passing it through the escaping function — the
raw `<b>` of the title appears verbatim in the card, while the escaped form
of the same title contains no `<b>`. -/
theorem business_card_unescaped_counterexample :
    containsSubstr (createExperienceCard hostileBizExperience) "<b>" = true
    ∧ containsSubstr (escapeHtml hostileBizExperience.title) "<b>" = false := by
  constructor <;> decide

set_option maxRecDepth 4000 in
/-- C4 (amended): `escapeHtml` maps the five special characters to entities
and its output never contains a raw `<`, `>`, `"` or apostrophe; the
finder/experiences cards and the detail-page lists pass user text through it,
so hostile titles render escaped there; but the landing-page category grid
(like the business-dashboard card of the counterexample) inserts the
category name into markup with no escaping at all. -/
theorem escaping_per_surface :
    (∀ s : String,
      (escapeHtml s).data.all
        (fun c => !(c == '<' || c == '>' || c == '"' || c == apos)) = true)
    ∧ escapeHtml "&" = "&amp;"
    ∧ escapeHtml "<" = "&lt;"
    ∧ escapeHtml ">" = "&gt;"
    ∧ escapeHtml "\"" = "&quot;"
    ∧ escapeHtml (String.mk [apos]) = "&#039;"
    ∧ containsSubstr (renderMatchCard hostileExperience) "<b>" = false
    ∧ containsSubstr (renderMatchCard hostileExperience) "&lt;b&gt;" = true
    ∧ containsSubstr (renderListHtml ["<b>item"]) "<b>" = false
    ∧ (∀ enc : String → String,
        containsSubstr (displayCategories enc [hostileCategory]) "<b>" = true) := by
  refine ⟨escapeHtml_no_raw_specials, by decide, by decide, by decide, by decide,
    by decide, by decide, by decide, by decide, ?_⟩
  intro enc
  show containsSubstr ("" ++ categoryCardHtml enc hostileCategory) "<b>" = true
  apply containsSubstr_append_right
  unfold categoryCardHtml
  apply containsSubstr_append_left
  apply containsSubstr_append_left
  apply containsSubstr_append_left
  apply containsSubstr_append_left
  decide

/-! ## C5: primary-image selection -/

/-- Inserting into the image list is a permutation of consing. -/
lemma insertImageByKey_perm (x : Image) (l : List Image) :
    (insertImageByKey x l).Perm (x :: l) := by
  induction l with
  | nil => exact List.Perm.refl _
  | cons y ys ih =>
    unfold insertImageByKey
    split
    · exact (List.Perm.cons y ih).trans (List.Perm.swap x y ys)
    · exact List.Perm.refl _

/-- The image sort is a permutation of its input. -/
lemma sortImages_perm (l : List Image) : (sortImages l).Perm l := by
  induction l with
  | nil => exact List.Perm.refl _
  | cons x xs ih =>
    show (insertImageByKey x (sortImages xs)).Perm (x :: xs)
    exact (insertImageByKey_perm x (sortImages xs)).trans (List.Perm.cons x ih)

/-- Insertion preserves ascending order of the sort keys. -/
lemma insertImageByKey_pairwise {x : Image} {l : List Image}
    (h : List.Pairwise (fun a b => sortKeyOf a ≤ sortKeyOf b) l) :
    List.Pairwise (fun a b => sortKeyOf a ≤ sortKeyOf b) (insertImageByKey x l) := by
  induction l with
  | nil => simp [insertImageByKey]
  | cons y ys ih =>
    rw [List.pairwise_cons] at h
    obtain ⟨hy, hys⟩ := h
    unfold insertImageByKey
    split
    next hlt =>
      rw [List.pairwise_cons]
      refine ⟨?_, ih hys⟩
      intro z hz
      have hz2 := (insertImageByKey_perm x ys).mem_iff.mp hz
      rcases List.mem_cons.mp hz2 with rfl | hz3
      · exact le_of_lt hlt
      · exact hy z hz3
    next hge =>
      rw [List.pairwise_cons]
      refine ⟨?_, List.pairwise_cons.mpr ⟨hy, hys⟩⟩
      intro z hz
      rcases List.mem_cons.mp hz with rfl | hz3
      · exact not_lt.mp hge
      · exact le_trans (not_lt.mp hge) (hy z hz3)

/-- The image sort produces ascending sort keys. -/
lemma sortImages_pairwise (l : List Image) :
    List.Pairwise (fun a b => sortKeyOf a ≤ sortKeyOf b) (sortImages l) := by
  induction l with
  | nil => simp [sortImages]
  | cons x xs ih =>
    show List.Pairwise _ (insertImageByKey x (sortImages xs))
    exact insertImageByKey_pairwise ih

/-- Defaulting to a non-empty string never yields the empty string. -/
lemma jsOr_ne_empty {s d : String} (hd : d ≠ "") : jsOr s d ≠ "" := by
  unfold jsOr
  split
  · exact hd
  next h => exact h

/-- A concatenation whose left part is non-empty is non-empty. -/
lemma append_ne_empty_left (a b : String) (ha : a.length ≠ 0) : a ++ b ≠ "" := by
  intro h
  have h2 := String.length_append a b
  rw [h] at h2
  have h0 : ("" : String).length = 0 := rfl
  omega

/-- C5 counterexample: with an image collection that is not stored in display
order and has no primary flag, the finder/experiences card picks the first
element of the collection as returned (`b.jpg`, display order 2), not the
first image by ascending display order (`a.jpg`, display order 1) that the
claimed rule selects. -/
theorem finder_image_order_counterexample :
    finderCardImageUrl outOfOrderExperience = "b.jpg"
    ∧ specPrimaryImageUrl "https://via.placeholder.com/300x200" outOfOrderExperience
        = "a.jpg"
    ∧ finderCardImageUrl outOfOrderExperience
        ≠ specPrimaryImageUrl "https://via.placeholder.com/300x200" outOfOrderExperience := by
  refine ⟨by decide, by decide, by decide⟩

/-- C5 (amended): the selection never yields an empty/undefined URL and falls
back to a defined placeholder on an empty collection; the image flagged
primary wins on every page; but only the detail page takes the fallback image
by ascending display order — the finder/experiences cards take the first
image in the collection's given order. -/
theorem primary_image_selection_amended :
    (∀ exp : Experience, exp.image = [] →
      finderCardImageUrl exp = "https://via.placeholder.com/300x200")
    ∧ (∀ (exp : Experience) (enc : String → String), exp.image = [] →
      detailMainImageUrl enc exp = detailPlaceholder enc exp.title)
    ∧ (∀ exp : Experience, finderCardImageUrl exp ≠ "")
    ∧ (∀ (exp : Experience) (enc : String → String), detailMainImageUrl enc exp ≠ "")
    ∧ (∀ (exp : Experience) (img : Image),
        exp.image.find? (·.is_primary) = some img → img.image_url ≠ "" →
        finderCardImageUrl exp = img.image_url)
    ∧ (∀ (exp : Experience) (enc : String → String) (img : Image),
        (sortImages exp.image).find? (·.is_primary) = some img →
        img.is_primary = true ∧ img ∈ exp.image
          ∧ detailMainImageUrl enc exp
              = jsOr img.image_url (detailPlaceholder enc exp.title))
    ∧ (∀ (exp : Experience) (enc : String → String),
        (∀ i ∈ exp.image, i.is_primary = false) → exp.image ≠ [] →
        ∃ img ∈ exp.image, (∀ j ∈ exp.image, sortKeyOf img ≤ sortKeyOf j)
          ∧ detailMainImageUrl enc exp
              = jsOr img.image_url (detailPlaceholder enc exp.title)) := by
  refine ⟨?_, ?_, ?_, ?_, ?_, ?_, ?_⟩
  · intro exp h
    simp [finderCardImageUrl, getPrimaryImageUrl, h, jsOr]
  · intro exp enc h
    simp [detailMainImageUrl, sortImages, h, jsOr]
  · intro exp
    exact jsOr_ne_empty (by decide)
  · intro exp enc
    exact jsOr_ne_empty (append_ne_empty_left _ _ (by decide))
  · intro exp img hfind hurl
    have hget : getPrimaryImageUrl exp = img.image_url := by
      show (match (exp.image.find? (·.is_primary)).orElse (fun _ => exp.image.head?) with
        | some primary => primary.image_url
        | none => "") = img.image_url
      rw [hfind]
      rfl
    unfold finderCardImageUrl
    rw [hget]
    unfold jsOr
    rw [if_neg hurl]
  · intro exp enc img hfind
    refine ⟨List.find?_some hfind, ?_, ?_⟩
    · exact (sortImages_perm exp.image).mem_iff.mp (List.mem_of_find?_eq_some hfind)
    · simp only [detailMainImageUrl]
      rw [hfind]
      rfl
  · intro exp enc hnoprim hne
    have hfind : (sortImages exp.image).find? (·.is_primary) = none := by
      rw [List.find?_eq_none]
      intro x hx
      have hx2 := (sortImages_perm exp.image).mem_iff.mp hx
      simp [hnoprim x hx2]
    have hne2 : sortImages exp.image ≠ [] := by
      intro h0
      have hlen := (sortImages_perm exp.image).length_eq
      rw [h0] at hlen
      cases himg : exp.image with
      | nil => exact hne himg
      | cons a t => rw [himg] at hlen; simp at hlen
    obtain ⟨img0, tail, htail⟩ : ∃ a t, sortImages exp.image = a :: t := by
      cases hs : sortImages exp.image with
      | nil => exact absurd hs hne2
      | cons a t => exact ⟨a, t, rfl⟩
    have hmem0 : img0 ∈ exp.image := by
      apply (sortImages_perm exp.image).mem_iff.mp
      rw [htail]
      exact List.mem_cons_self _ _
    refine ⟨img0, hmem0, ?_, ?_⟩
    · intro j hj
      have hj2 : j ∈ sortImages exp.image := (sortImages_perm exp.image).mem_iff.mpr hj
      rw [htail] at hj2
      rcases List.mem_cons.mp hj2 with rfl | hj3
      · exact le_refl _
      · have hp := sortImages_pairwise exp.image
        rw [htail] at hp
        exact List.rel_of_pairwise_cons hp hj3
    · simp only [detailMainImageUrl]
      rw [hfind, htail]
      rfl

/-- C5 witness: the amended selection theorem applied to the concrete
no-image experience and the concrete out-of-order collection. -/
theorem primary_image_selection_amended_witness :
    (sampleExperience.image = []
      ∧ detailMainImageUrl sampleEnc sampleExperience
          = detailPlaceholder sampleEnc sampleExperience.title)
    ∧ ((∀ i ∈ outOfOrderExperience.image, i.is_primary = false)
      ∧ outOfOrderExperience.image ≠ []
      ∧ ∃ img ∈ outOfOrderExperience.image,
          (∀ j ∈ outOfOrderExperience.image, sortKeyOf img ≤ sortKeyOf j)
          ∧ detailMainImageUrl sampleEnc outOfOrderExperience
              = jsOr img.image_url (detailPlaceholder sampleEnc outOfOrderExperience.title)) := by
  refine ⟨⟨by decide,
      primary_image_selection_amended.2.1 sampleExperience sampleEnc (by decide)⟩,
    by decide, by decide,
    primary_image_selection_amended.2.2.2.2.2.2 outOfOrderExperience sampleEnc
      (by decide) (by decide)⟩

/-! ## C6: favorite toggles and fresh reads -/

/-- C6 counterexample: the detail-page toggle at a concrete input issues no
fresh read of the favorite table — the displayed flag is set by optimistic
local mutation (`isFavorited = false` after deleting), contradicting the
claim that every page re-derives the displayed favorite state from a fresh
read. -/
theorem detail_toggle_no_fresh_read_counterexample :
    Detail.toggleFavorite [⟨"u1", "e1"⟩] "u1" true "e1"
      = { favorite := [], isFavorited := false, freshReadIssued := false } := by
  decide

/-- C6 (amended): on the user dashboard every toggle ends with a fresh read
of the favorite table and the displayed id set equals the set derived from
the persisted table; on the detail page the toggle issues no fresh read and
the displayed flag is the optimistic local negation of the previous flag. -/
theorem favorite_toggle_read_behavior :
    (∀ (favorite : List FavRow) (uid : String) (ids : List String)
        (experienceId : String),
      (UserDash.toggleFavorite favorite uid ids experienceId).freshReadIssued = true
      ∧ (UserDash.toggleFavorite favorite uid ids experienceId).favoriteExperienceIds
          = favsOf (UserDash.toggleFavorite favorite uid ids experienceId).favorite uid)
    ∧ (∀ (favorite : List FavRow) (uid : String) (isFavorited : Bool)
        (experienceId : String),
      (Detail.toggleFavorite favorite uid isFavorited experienceId).freshReadIssued
          = false
      ∧ (Detail.toggleFavorite favorite uid isFavorited experienceId).isFavorited
          = !isFavorited) := by
  constructor
  · intro favorite uid ids experienceId
    unfold UserDash.toggleFavorite
    split <;> exact ⟨rfl, rfl⟩
  · intro favorite uid isFavorited experienceId
    unfold Detail.toggleFavorite
    cases isFavorited <;> simp

/-! ## C7: metrics cool-down de-duplication -/

/-- The cached timestamp of any key is bounded by a bound on all cache
entries (an absent key reads as 0). -/
lemma lsGetNum_le {B : Int} (key : String) :
    ∀ {cache : List (String × Int)},
      (∀ kv ∈ cache, kv.2 ≤ B) → 0 ≤ B → lsGetNum cache key ≤ B
  | [], _, hB => by simpa [lsGetNum, List.lookup] using hB
  | (k, v) :: rest, h, hB => by
    unfold lsGetNum
    rw [List.lookup]
    split
    · simpa using h (k, v) (List.mem_cons_self _ _)
    · exact lsGetNum_le key (fun kv hkv => h kv (List.mem_cons_of_mem _ hkv)) hB

/-- One metrics log attempt preserves the de-duplication invariant: cache
entries are bounded by the current time, recorded events of each
(kind, experience) pair are at least one cool-down window apart, and each
such event is no later than the cached timestamp of its dedupe key. -/
lemma stepEvent_preserves (s : MetricsState) (e : TraceEvent) (B : Int)
    (hcache : ∀ kv ∈ s.cache, kv.2 ≤ B) (hB : 0 ≤ B) (hBt : B ≤ e.time)
    (hinv : ∀ (k : EventKind) (experienceId : String),
      List.Pairwise (fun a b => a.time + coolDownMs ≤ b.time) (recordedFor s k experienceId)
      ∧ ∀ r ∈ recordedFor s k experienceId,
          r.time ≤ lsGetNum s.cache (keyOfKind k experienceId)) :
    (∀ kv ∈ (stepEvent s e).cache, kv.2 ≤ e.time)
    ∧ (∀ (k : EventKind) (experienceId : String),
      List.Pairwise (fun a b => a.time + coolDownMs ≤ b.time)
        (recordedFor (stepEvent s e) k experienceId)
      ∧ ∀ r ∈ recordedFor (stepEvent s e) k experienceId,
          r.time ≤ lsGetNum (stepEvent s e).cache (keyOfKind k experienceId)) := by
  obtain ⟨t, kind, eid⟩ := e
  have hBt2 : B ≤ t := hBt
  have hgen : ∀ (k0 : EventKind),
      (∀ kv ∈ (if t - lsGetNum s.cache (keyOfKind k0 eid) < coolDownMs then s
        else ⟨lsSet s.cache (keyOfKind k0 eid) t,
          s.recorded ++ [⟨eid, typeOfKind k0, t⟩]⟩ : MetricsState).cache, kv.2 ≤ t)
      ∧ (∀ (k : EventKind) (experienceId : String),
        List.Pairwise (fun a b => a.time + coolDownMs ≤ b.time)
          (recordedFor (if t - lsGetNum s.cache (keyOfKind k0 eid) < coolDownMs then s
            else ⟨lsSet s.cache (keyOfKind k0 eid) t,
              s.recorded ++ [⟨eid, typeOfKind k0, t⟩]⟩) k experienceId)
        ∧ ∀ r ∈ recordedFor (if t - lsGetNum s.cache (keyOfKind k0 eid) < coolDownMs then s
            else ⟨lsSet s.cache (keyOfKind k0 eid) t,
              s.recorded ++ [⟨eid, typeOfKind k0, t⟩]⟩) k experienceId,
            r.time ≤ lsGetNum (if t - lsGetNum s.cache (keyOfKind k0 eid) < coolDownMs then s
              else ⟨lsSet s.cache (keyOfKind k0 eid) t,
                s.recorded ++ [⟨eid, typeOfKind k0, t⟩]⟩ : MetricsState).cache
              (keyOfKind k experienceId)) := by
    intro k0
    by_cases hskip : t - lsGetNum s.cache (keyOfKind k0 eid) < coolDownMs
    · simp only [if_pos hskip]
      refine ⟨fun kv hkv => le_trans (hcache kv hkv) hBt, ?_⟩
      intro k experienceId
      exact ⟨(hinv k experienceId).1, fun r hr => (hinv k experienceId).2 r hr⟩
    · have hlast : lsGetNum s.cache (keyOfKind k0 eid) + coolDownMs ≤ t := by omega
      have hlastB : lsGetNum s.cache (keyOfKind k0 eid) ≤ B := lsGetNum_le _ hcache hB
      simp only [if_neg hskip]
      constructor
      · intro kv hkv
        rcases List.mem_cons.mp hkv with rfl | hkv2
        · exact le_refl _
        · exact le_trans (hcache kv hkv2) hBt
      · intro k experienceId
        by_cases hsame : typeOfKind k = typeOfKind k0 ∧ experienceId = eid
        · obtain ⟨hk, rfl⟩ := hsame
          have hrec2 : recordedFor ⟨lsSet s.cache (keyOfKind k0 experienceId) t,
              s.recorded ++ [⟨experienceId, typeOfKind k0, t⟩]⟩ k experienceId
              = recordedFor s k experienceId ++ [⟨experienceId, typeOfKind k0, t⟩] := by
            unfold recordedFor
            rw [List.filter_append]
            simp [hk]
          have hkeysame : keyOfKind k experienceId = keyOfKind k0 experienceId := by
            cases k <;> cases k0 <;> simp_all [typeOfKind, keyOfKind]
          constructor
          · rw [hrec2]
            rw [List.pairwise_append]
            refine ⟨(hinv k experienceId).1, by simp, ?_⟩
            intro a ha b hb
            rw [List.mem_singleton] at hb
            subst hb
            have ha2 := (hinv k experienceId).2 a ha
            rw [hkeysame] at ha2
            dsimp only
            omega
          · intro r hr
            rw [hrec2] at hr
            have hnew : lsGetNum (lsSet s.cache (keyOfKind k0 experienceId) t)
                (keyOfKind k experienceId) = t := by
              rw [hkeysame]
              unfold lsGetNum lsSet
              rw [List.lookup]
              simp
            rw [hnew]
            rcases List.mem_append.mp hr with hr2 | hr2
            · have hrb := (hinv k experienceId).2 r hr2
              rw [hkeysame] at hrb
              omega
            · rw [List.mem_singleton] at hr2
              subst hr2
              exact le_refl _
        · have hpred : ((typeOfKind k0 == typeOfKind k) && (eid == experienceId))
              = false := by
            rcases not_and_or.mp hsame with hk | hid
            · have hbeq : (typeOfKind k0 == typeOfKind k) = false :=
                beq_eq_false_iff_ne.mpr (fun h => hk h.symm)
              simp [hbeq]
            · have hbeq : (eid == experienceId) = false :=
                beq_eq_false_iff_ne.mpr (fun h => hid h.symm)
              simp [hbeq]
          have hrec2 : recordedFor ⟨lsSet s.cache (keyOfKind k0 eid) t,
              s.recorded ++ [⟨eid, typeOfKind k0, t⟩]⟩ k experienceId
              = recordedFor s k experienceId := by
            unfold recordedFor
            rw [List.filter_append]
            simp [hpred]
          rw [hrec2]
          refine ⟨(hinv k experienceId).1, ?_⟩
          intro r hr
          have hbound := (hinv k experienceId).2 r hr
          unfold lsGetNum lsSet
          rw [List.lookup]
          split
          · have hrB : r.time ≤ B := le_trans hbound (lsGetNum_le _ hcache hB)
            simp only [Option.getD_some]
            omega
          · exact hbound
  cases kind
  · exact hgen .view
  · exact hgen .bookingClick

/-- Processing a monotone trace from an invariant-satisfying state keeps all
recorded events of each (kind, experience) pair one window apart. -/
lemma runTrace_pairwise_aux :
    ∀ (tr : List TraceEvent) (s : MetricsState) (B : Int),
      (∀ kv ∈ s.cache, kv.2 ≤ B) → 0 ≤ B → (∀ e ∈ tr, B ≤ e.time) →
      List.Pairwise (fun a b => a.time ≤ b.time) tr →
      (∀ (k : EventKind) (experienceId : String),
        List.Pairwise (fun a b => a.time + coolDownMs ≤ b.time)
          (recordedFor s k experienceId)
        ∧ ∀ r ∈ recordedFor s k experienceId,
            r.time ≤ lsGetNum s.cache (keyOfKind k experienceId)) →
      ∀ (k : EventKind) (experienceId : String),
        List.Pairwise (fun a b => a.time + coolDownMs ≤ b.time)
          (recordedFor (tr.foldl stepEvent s) k experienceId) := by
  intro tr
  induction tr with
  | nil =>
    intro s B _ _ _ _ hinv k experienceId
    exact (hinv k experienceId).1
  | cons e rest ih =>
    intro s B hcache hB htr hmono hinv k experienceId
    rw [List.pairwise_cons] at hmono
    have hBt : B ≤ e.time := htr e (List.mem_cons_self _ _)
    have hstep := stepEvent_preserves s e B hcache hB hBt hinv
    exact ih (stepEvent s e) e.time hstep.1 (le_trans hB hBt)
      (fun e' he' => hmono.1 e' he') hmono.2 hstep.2 k experienceId

/-- Setting a key makes the newest entry the one read back. -/
lemma lsGetNum_set_self (cache : List (String × Int)) (key : String) (v : Int) :
    lsGetNum (lsSet cache key v) key = v := by
  unfold lsGetNum lsSet
  rw [List.lookup]
  simp

/-- When the cool-down has passed, `logViewOnce` stores the timestamp and
records the view. -/
lemma logViewOnce_records (t : Int) (experienceId : String) (s : MetricsState)
    (h : ¬(t - lsGetNum s.cache ("viewed_" ++ experienceId) < 30 * 60 * 1000)) :
    logViewOnce t experienceId s
      = ⟨lsSet s.cache ("viewed_" ++ experienceId) t,
          s.recorded ++ [⟨experienceId, "view", t⟩]⟩ := by
  simp only [logViewOnce]
  rw [if_neg h]

/-- When the cool-down has passed, `logBookingClickOnce` stores the timestamp
and records the booking click. -/
lemma logBookingClickOnce_records (t : Int) (experienceId : String) (s : MetricsState)
    (h : ¬(t - lsGetNum s.cache ("booking_" ++ experienceId) < 30 * 60 * 1000)) :
    logBookingClickOnce t experienceId 30 s
      = ⟨lsSet s.cache ("booking_" ++ experienceId) t,
          s.recorded ++ [⟨experienceId, "booking_click", t⟩]⟩ := by
  simp only [logBookingClickOnce]
  rw [if_neg h]

/-- C7: (i) over any time-monotone trace of view/booking-click actions, any
two recorded events of the same kind for the same experience are at least the
30-minute cool-down window apart — so at most one event per window is
recorded per (experience, kind) pair of the client-local cache; (ii) two
actions of the same kind for the same experience a full window apart are both
recorded. -/
theorem metrics_cooldown_dedupe :
    (∀ tr : List TraceEvent,
      (∀ e ∈ tr, 0 ≤ e.time) →
      List.Pairwise (fun a b => a.time ≤ b.time) tr →
      ∀ (k : EventKind) (experienceId : String),
        List.Pairwise (fun a b => a.time + coolDownMs ≤ b.time)
          (recordedFor (runTrace tr) k experienceId))
    ∧ (∀ (t1 t2 : Int) (k : EventKind) (experienceId : String),
        coolDownMs ≤ t1 → t1 + coolDownMs ≤ t2 →
        (runTrace [⟨t1, k, experienceId⟩, ⟨t2, k, experienceId⟩]).recorded
          = [⟨experienceId, typeOfKind k, t1⟩, ⟨experienceId, typeOfKind k, t2⟩]) := by
  constructor
  · intro tr h0 hmono k experienceId
    refine runTrace_pairwise_aux tr initMetricsState 0 ?_ le_rfl h0 hmono ?_ k experienceId
    · intro kv hkv
      simp [initMetricsState] at hkv
    · intro k' experienceId'
      constructor
      · exact List.Pairwise.nil
      · intro r hr
        simp [recordedFor, initMetricsState] at hr
  · intro t1 t2 k experienceId h1 h2
    unfold coolDownMs at h1 h2
    cases k
    · have h1c : ¬(t1 - lsGetNum initMetricsState.cache
          ("viewed_" ++ experienceId) < 30 * 60 * 1000) := by
        show ¬(t1 - (0 : Int) < 30 * 60 * 1000)
        omega
      have step1 := logViewOnce_records t1 experienceId initMetricsState h1c
      have h2c : ¬(t2 - lsGetNum (lsSet initMetricsState.cache
          ("viewed_" ++ experienceId) t1) ("viewed_" ++ experienceId)
          < 30 * 60 * 1000) := by
        rw [lsGetNum_set_self]
        omega
      have step2 := logViewOnce_records t2 experienceId
        ⟨lsSet initMetricsState.cache ("viewed_" ++ experienceId) t1,
          initMetricsState.recorded ++ [⟨experienceId, "view", t1⟩]⟩ h2c
      show (logViewOnce t2 experienceId
        (logViewOnce t1 experienceId initMetricsState)).recorded = _
      rw [step1, step2]
      rfl
    · have h1c : ¬(t1 - lsGetNum initMetricsState.cache
          ("booking_" ++ experienceId) < 30 * 60 * 1000) := by
        show ¬(t1 - (0 : Int) < 30 * 60 * 1000)
        omega
      have step1 := logBookingClickOnce_records t1 experienceId initMetricsState h1c
      have h2c : ¬(t2 - lsGetNum (lsSet initMetricsState.cache
          ("booking_" ++ experienceId) t1) ("booking_" ++ experienceId)
          < 30 * 60 * 1000) := by
        rw [lsGetNum_set_self]
        omega
      have step2 := logBookingClickOnce_records t2 experienceId
        ⟨lsSet initMetricsState.cache ("booking_" ++ experienceId) t1,
          initMetricsState.recorded ++ [⟨experienceId, "booking_click", t1⟩]⟩ h2c
      show (logBookingClickOnce t2 experienceId 30
        (logBookingClickOnce t1 experienceId 30 initMetricsState)).recorded = _
      rw [step1, step2]
      rfl

/-- C7 witness: the de-duplication theorem applied to a concrete trace (two
views 800 ms apart), and the both-recorded part applied at two views exactly
one window apart. -/
theorem metrics_cooldown_dedupe_witness :
    ((∀ e ∈ ([⟨1800000, .view, "e1"⟩, ⟨1800800, .view, "e1"⟩] : List TraceEvent),
        0 ≤ e.time)
      ∧ List.Pairwise (fun a b => a.time ≤ b.time)
          ([⟨1800000, .view, "e1"⟩, ⟨1800800, .view, "e1"⟩] : List TraceEvent)
      ∧ List.Pairwise (fun a b => a.time + coolDownMs ≤ b.time)
          (recordedFor (runTrace [⟨1800000, .view, "e1"⟩, ⟨1800800, .view, "e1"⟩])
            .view "e1"))
    ∧ (coolDownMs ≤ 1800000 ∧ 1800000 + coolDownMs ≤ 3600000
      ∧ (runTrace [⟨1800000, .view, "e1"⟩, ⟨3600000, .view, "e1"⟩]).recorded
          = [⟨"e1", "view", 1800000⟩, ⟨"e1", "view", 3600000⟩]) := by
  refine ⟨⟨by decide, by decide,
      metrics_cooldown_dedupe.1 _ (by decide) (by decide) .view "e1"⟩,
    by decide, by decide,
    metrics_cooldown_dedupe.2 1800000 3600000 .view "e1" (by decide) (by decide)⟩

/-! ## C8: role-lookup failure handling -/

/-- C8 counterexample: with a logged-in user and a thrown role lookup, the
experiences page aborts the rest of its initialization (the experiences list
is never loaded), and the finder page shows the guest variant — not the
baseline `user` role the claim requires on every page. -/
theorem role_lookup_thrown_counterexample :
    XP.pageInit (some ⟨"u1"⟩) .thrown
      = { nav := guestNav, bindEventsRan := false, experiencesLoaded := false }
    ∧ Finder.updateNavForAuthState (some ⟨"u1"⟩) .thrown = guestNav := by
  constructor <;> decide

/-- C8 (amended): an error result from the role lookup degrades every page to
the baseline `user` role; a thrown exception is caught on the finder page
(reverting to the guest variant) and on the detail page (showing the user
variant), but on the experiences page it is uncaught and aborts the remaining
page initialization; and every completed nav update displays exactly one of
the guest/user/business variants. -/
theorem role_lookup_failure_amended :
    (∀ u : AuthUser,
      Finder.updateNavForAuthState (some u) .errResult = userNav
      ∧ XP.updateNavForAuthState (some u) .errResult = (userNav, true)
      ∧ Detail.setNavState (some u) .errResult = userNav
      ∧ Finder.updateNavForAuthState (some u) .thrown = guestNav
      ∧ Detail.setNavState (some u) .thrown = userNav
      ∧ (XP.pageInit (some u) .thrown).experiencesLoaded = false
      ∧ (XP.pageInit (some u) .thrown).bindEventsRan = false)
    ∧ (∀ (user : Option AuthUser) (lookup : RoleLookup),
      navCount (Finder.updateNavForAuthState user lookup) = 1
      ∧ navCount (Detail.setNavState user lookup) = 1
      ∧ navCount (XP.updateNavForAuthState user lookup).1 = 1) := by
  constructor
  · intro u
    exact ⟨rfl, rfl, rfl, rfl, rfl, rfl, rfl⟩
  · intro user lookup
    refine ⟨?_, ?_, ?_⟩ <;>
      cases user with
      | none => rfl
      | some u =>
        cases lookup with
        | errResult => rfl
        | thrown => rfl
        | ok r =>
          show navCount (if jsOr r "user" = "business" then businessNav else userNav) = 1
          split <;> rfl

/-! ## C9: the detail page never sees a logged-in user -/

/-- Every reachable state of the detail page keeps `authUser = null`, the
favourite flag false, and the stored favourite state unfetched. -/
lemma runPage_invariant (favorite : List FavRow) :
    ∀ (events : List Detail.PageEvent) (s : Detail.PageState),
      s.authUser = none → s.isFavorited = false → s.favoriteStateLoaded = false →
      (events.foldl (Detail.stepPage favorite) s).authUser = none
      ∧ (events.foldl (Detail.stepPage favorite) s).isFavorited = false
      ∧ (events.foldl (Detail.stepPage favorite) s).favoriteStateLoaded = false := by
  intro events
  induction events with
  | nil => intro s h1 h2 h3; exact ⟨h1, h2, h3⟩
  | cons e rest ih =>
    intro s h1 h2 h3
    obtain ⟨au, cid, fav, loaded, red⟩ := s
    have h1a : au = none := h1
    have h2a : fav = false := h2
    have h3a : loaded = false := h3
    subst h1a h2a h3a
    cases e with
    | domReady urlId =>
      cases urlId with
      | none => exact ih _ rfl rfl rfl
      | some experienceId => exact ih _ rfl rfl rfl
    | saveClick => exact ih _ rfl rfl rfl

/-- C9: on the detail page, `authUser` is never reassigned from `null`, so
for every sequence of page events the favourite state is never fetched
(`loadFavoriteState` unreachable), the favourite flag stays false, and every
Save click redirects to the login page — even in sessions where the backend
would report an authenticated user. -/
theorem detail_page_auth_never_set :
    ∀ (favorite : List FavRow) (events : List Detail.PageEvent),
      (Detail.runPage favorite events).authUser = none
      ∧ (Detail.runPage favorite events).isFavorited = false
      ∧ (Detail.runPage favorite events).favoriteStateLoaded = false
      ∧ (Detail.runPage favorite (events ++ [Detail.PageEvent.saveClick])).redirects
          = (Detail.runPage favorite events).redirects ++ ["auth/login.html"] := by
  intro favorite events
  have hinv := runPage_invariant favorite events Detail.initPageState rfl rfl rfl
  refine ⟨hinv.1, hinv.2.1, hinv.2.2, ?_⟩
  unfold Detail.runPage
  rw [List.foldl_append]
  show (Detail.handleSaveClick (events.foldl (Detail.stepPage favorite)
    Detail.initPageState)).redirects = _
  unfold Detail.handleSaveClick
  rw [hinv.1]

/-! ## C10: KPI count helpers on failing queries -/

/-- C10: when the underlying count query returns an error, both counting
helpers return 0 instead of propagating the error, so a KPI refresh with
every query failing still completes and renders the numeric total 0 for each
KPI (and a successful count is passed through unchanged). -/
theorem count_helpers_swallow_errors :
    (∀ message : String,
      countEvents (.err message) = 0 ∧ countSaves (.err message) = 0)
    ∧ (∀ m1 m2 m3 : String,
      refreshKpis (.err m1) (.err m2) (.err m3)
        = { kpiViews := "0", kpiSaves := "0", kpiClicks := "0" })
    ∧ (∀ n : Nat, countEvents (.ok (some n)) = n ∧ countSaves (.ok (some n)) = n)
    ∧ (countEvents (.ok none) = 0 ∧ countSaves (.ok none) = 0) := by
  refine ⟨fun message => ⟨rfl, rfl⟩, fun m1 m2 m3 => rfl,
    fun n => ⟨rfl, rfl⟩, rfl, rfl⟩

end ExperienceMe
